import Mathlib

/-!
Verification of the poloniex-exchange-api client library.

The development shallowly embeds the request-signing and request-dispatch
core of the library: the qs-style urlencoded serialization of a parameter
map, the HMAC-SHA512 signature over that serialization (the Node crypto
primitive is embedded as a full executable SHA-512/HMAC over byte lists,
with bytes and 64-bit words as `Nat` reduced mod 2^64), the raw agent that
builds the transport configuration for public GETs and private POSTs, the
nonce generator, and the error-unwrapping chain of the private send path.
Transport itself (axios) is external: an operation is modelled up to the
configuration object it hands to the transport.
-/

namespace Poloniex

/-! ## 64-bit words as `Nat` mod 2^64 -/

/-- 2^64, the modulus for 64-bit words. -/
def two64 : Nat := 18446744073709551616

/-- 2^64 - 1, the all-ones 64-bit mask. -/
def mask64 : Nat := 18446744073709551615

/-- 64-bit addition: `Nat` addition reduced mod 2^64. -/
def add64 (x y : Nat) : Nat := (x + y) % two64

/-- 64-bit complement of a word already below 2^64. -/
def not64 (x : Nat) : Nat := x ^^^ mask64

/-- Rotate a 64-bit word right by `n` bits (`0 < n < 64`). -/
def rotr64 (x n : Nat) : Nat := (x >>> n ||| x <<< (64 - n)) % two64

/-! ## SHA-512 (FIPS 180-4), over messages given as lists of byte values -/

/-- The 80 SHA-512 round constants (high 64 bits of the fractional parts of
the cube roots of the first 80 primes). -/
def sha512K : List Nat := [
  4794697086780616226, 8158064640168781261, 13096744586834688815, 16840607885511220156,
  4131703408338449720, 6480981068601479193, 10538285296894168987, 12329834152419229976,
  15566598209576043074, 1334009975649890238, 2608012711638119052, 6128411473006802146,
  8268148722764581231, 9286055187155687089, 11230858885718282805, 13951009754708518548,
  16472876342353939154, 17275323862435702243, 1135362057144423861, 2597628984639134821,
  3308224258029322869, 5365058923640841347, 6679025012923562964, 8573033837759648693,
  10970295158949994411, 12119686244451234320, 12683024718118986047, 13788192230050041572,
  14330467153632333762, 15395433587784984357, 489312712824947311, 1452737877330783856,
  2861767655752347644, 3322285676063803686, 5560940570517711597, 5996557281743188959,
  7280758554555802590, 8532644243296465576, 9350256976987008742, 10552545826968843579,
  11727347734174303076, 12113106623233404929, 14000437183269869457, 14369950271660146224,
  15101387698204529176, 15463397548674623760, 17586052441742319658, 1182934255886127544,
  1847814050463011016, 2177327727835720531, 2830643537854262169, 3796741975233480872,
  4115178125766777443, 5681478168544905931, 6601373596472566643, 7507060721942968483,
  8399075790359081724, 8693463985226723168, 9568029438360202098, 10144078919501101548,
  10430055236837252648, 11840083180663258601, 13761210420658862357, 14299343276471374635,
  14566680578165727644, 15097957966210449927, 16922976911328602910, 17689382322260857208,
  500013540394364858, 748580250866718886, 1242879168328830382, 1977374033974150939,
  2944078676154940804, 3659926193048069267, 4368137639120453308, 4836135668995329356,
  5532061633213252278, 6448918945643986474, 6902733635092675308, 7801388544844847127]

/-- The eight-word SHA-512 chaining state. -/
structure Sha512State where
  a : Nat
  b : Nat
  c : Nat
  d : Nat
  e : Nat
  f : Nat
  g : Nat
  h : Nat

/-- Initial SHA-512 hash value (high 64 bits of the fractional parts of the
square roots of the first 8 primes). -/
def sha512Init : Sha512State :=
  ⟨7640891576956012808, 13503953896175478587, 4354685564936845355, 11912009170470909681,
   5840696475078001361, 11170449401992604703, 2270897969802886507, 6620516959819538809⟩

/-- SHA-512 Ch function. -/
def shaCh (e f g : Nat) : Nat := (e &&& f) ^^^ (not64 e &&& g)

/-- SHA-512 Maj function. -/
def shaMaj (a b c : Nat) : Nat := ((a &&& b) ^^^ (a &&& c)) ^^^ (b &&& c)

/-- SHA-512 big sigma 0. -/
def bigSigma0 (x : Nat) : Nat := (rotr64 x 28) ^^^ ((rotr64 x 34) ^^^ (rotr64 x 39))

/-- SHA-512 big sigma 1. -/
def bigSigma1 (x : Nat) : Nat := (rotr64 x 14) ^^^ ((rotr64 x 18) ^^^ (rotr64 x 41))

/-- SHA-512 small sigma 0. -/
def smallSigma0 (x : Nat) : Nat := (rotr64 x 1) ^^^ ((rotr64 x 8) ^^^ (x >>> 7))

/-- SHA-512 small sigma 1. -/
def smallSigma1 (x : Nat) : Nat := (rotr64 x 19) ^^^ ((rotr64 x 61) ^^^ (x >>> 6))

/-- Big-endian bytes of `n`, exactly `k` bytes long. -/
def natToBytesBE (k n : Nat) : List Nat :=
  (List.range k).map (fun i => (n >>> (8 * (k - 1 - i))) % 256)

/-- The `i`-th big-endian 64-bit word of a 128-byte block. -/
def word64At (block : List Nat) (i : Nat) : Nat :=
  (List.range 8).foldl (fun acc j => acc * 256 + block.getD (8 * i + j) 0) 0

/-- The 16 message words of a 128-byte block. -/
def blockWords (block : List Nat) : List Nat :=
  (List.range 16).map (word64At block)

/-- Extend a partial message schedule by one word. -/
def scheduleStep (w : List Nat) : List Nat :=
  let i := w.length
  w ++ [add64 (add64 (smallSigma1 (w.getD (i - 2) 0)) (w.getD (i - 7) 0))
              (add64 (smallSigma0 (w.getD (i - 15) 0)) (w.getD (i - 16) 0))]

/-- The full 80-word message schedule of a block. -/
def messageSchedule (block : List Nat) : List Nat :=
  (List.range 64).foldl (fun w _ => scheduleStep w) (blockWords block)

/-- One SHA-512 round on the working state, with round constant `k` and
schedule word `w`. -/
def sha512Round (k w : Nat) (s : Sha512State) : Sha512State :=
  let t1 := add64 s.h (add64 (bigSigma1 s.e) (add64 (shaCh s.e s.f s.g) (add64 k w)))
  let t2 := add64 (bigSigma0 s.a) (shaMaj s.a s.b s.c)
  ⟨add64 t1 t2, s.a, s.b, s.c, add64 s.d t1, s.e, s.f, s.g⟩

/-- The SHA-512 compression function on one 128-byte block. -/
def sha512Compress (st : Sha512State) (block : List Nat) : Sha512State :=
  let w := messageSchedule block
  let s := (List.range 80).foldl
    (fun s i => sha512Round (sha512K.getD i 0) (w.getD i 0) s) st
  ⟨add64 st.a s.a, add64 st.b s.b, add64 st.c s.c, add64 st.d s.d,
   add64 st.e s.e, add64 st.f s.f, add64 st.g s.g, add64 st.h s.h⟩

/-- SHA-512 padding: a 0x80 byte, zeros to 112 mod 128, then the bit length
as a 16-byte big-endian integer. -/
def sha512Pad (msg : List Nat) : List Nat :=
  msg ++ [128] ++ List.replicate ((240 - (msg.length + 1) % 128) % 128) 0
      ++ natToBytesBE 16 (msg.length * 8)

/-- Split a byte list into blocks of 128 bytes; structural recursion on a
fuel bound so the definition reduces definitionally. -/
def toBlocksAux (fuel : Nat) (bs : List Nat) : List (List Nat) :=
  match fuel with
  | 0 => []
  | fuel + 1 =>
    match bs with
    | [] => []
    | _ => bs.take 128 :: toBlocksAux fuel (bs.drop 128)

/-- Split a byte list into blocks of 128 bytes (the list's length always
bounds the number of blocks). -/
def toBlocks (bs : List Nat) : List (List Nat) := toBlocksAux bs.length bs

/-- SHA-512 of a byte list, as the 64 digest bytes. -/
def sha512 (msg : List Nat) : List Nat :=
  let st := (toBlocks (sha512Pad msg)).foldl sha512Compress sha512Init
  natToBytesBE 8 st.a ++ natToBytesBE 8 st.b ++ natToBytesBE 8 st.c ++ natToBytesBE 8 st.d ++
    natToBytesBE 8 st.e ++ natToBytesBE 8 st.f ++ natToBytesBE 8 st.g ++ natToBytesBE 8 st.h

/-- HMAC-SHA512 (RFC 2104): block size 128 bytes, ipad 0x36, opad 0x5c. -/
def hmacSha512 (key msg : List Nat) : List Nat :=
  let k0 := if 128 < key.length then sha512 key else key
  let kp := k0 ++ List.replicate (128 - k0.length) 0
  sha512 ((kp.map (fun b => b ^^^ 92)) ++ sha512 ((kp.map (fun b => b ^^^ 54)) ++ msg))

/-! ## Hex rendering and UTF-8 -/

/-- The sixteen lowercase hex digit characters. -/
def lowerHexDigits : List Char := "0123456789abcdef".data

/-- The lowercase hex digit for a value below 16. -/
def hexDigitChar (n : Nat) : Char := lowerHexDigits.getD n '0'

/-- Whether a character is a lowercase hex digit. -/
def isLowerHexChar (c : Char) : Bool := lowerHexDigits.contains c

/-- The two lowercase hex characters of one byte. -/
def byteToHex (b : Nat) : List Char := [hexDigitChar (b / 16), hexDigitChar (b % 16)]

/-- A byte list rendered as a lowercase hex string, as Node's
`digest('hex')` renders a digest. -/
def bytesToHex (bs : List Nat) : String := String.mk (List.flatten (bs.map byteToHex))

/-- The UTF-8 bytes of one character. -/
def utf8EncodeChar (c : Char) : List Nat :=
  let n := c.toNat
  if n < 128 then [n]
  else if n < 2048 then [192 + n / 64, 128 + n % 64]
  else if n < 65536 then [224 + n / 4096, 128 + (n / 64) % 64, 128 + n % 64]
  else [240 + n / 262144, 128 + (n / 4096) % 64, 128 + (n / 64) % 64, 128 + n % 64]

/-- The UTF-8 bytes of a string. -/
def utf8Encode (s : String) : List Nat := List.flatten (s.data.map utf8EncodeChar)

/-! ## qs.stringify

The library serializes every query string and POST body with `qs.stringify`
on a flat object of strings and numbers.  A parameter map is embedded as an
ordered association list (JS object insertion order); `undefined` values are
a first-class constructor because `qs.stringify` drops such pairs, which the
endpoint wrappers rely on for absent optional fields. -/

/-- A JS value occurring in a request parameter object. -/
inductive QVal where
  /-- A string value. -/
  | str (s : String)
  /-- A numeric value (the values relevant here are integers). -/
  | num (n : Int)
  /-- JS `undefined`; `qs.stringify` skips the pair. -/
  | undef
deriving DecidableEq

/-- An ordered parameter map, in JS object insertion order. -/
abbrev Params := List (String × QVal)

/-- RFC 3986 unreserved byte (alphanumeric or one of hyphen, dot,
underscore, tilde): the bytes `qs` leaves unescaped. -/
def isUnreservedByte (b : Nat) : Bool :=
  (48 ≤ b && b ≤ 57) || (65 ≤ b && b ≤ 90) || (97 ≤ b && b ≤ 122) ||
    b == 45 || b == 46 || b == 95 || b == 126

/-- The sixteen uppercase hex digit characters (`qs` percent-escapes use
uppercase hex). -/
def upperHexDigits : List Char := "0123456789ABCDEF".data

/-- Percent-escape of one byte, uppercase as in the `qs` hex table. -/
def pctEncodeByte (b : Nat) : List Char :=
  ['%', upperHexDigits.getD (b / 16) '0', upperHexDigits.getD (b % 16) '0']

/-- `qs`'s percent-encoder: unreserved bytes kept, all other UTF-8 bytes
percent-escaped. -/
def qsEncode (s : String) : String :=
  String.mk (List.flatten ((utf8Encode s).map
    (fun b => if isUnreservedByte b then [Char.ofNat b] else pctEncodeByte b)))

/-- The serialized form of one value: strings as-is, numbers via JS
`String(n)`, `undefined` dropped. -/
def qvString : QVal → Option String
  | .str s => some s
  | .num n => some (toString n)
  | .undef => none

/-- `qs.stringify` on a flat parameter object: `k=v` pairs joined by `&` in
insertion order, keys and values percent-encoded, `undefined` pairs
skipped. -/
def qsStringify (ps : Params) : String :=
  String.intercalate "&"
    (ps.filterMap (fun p => (qvString p.2).map (fun v => qsEncode p.1 ++ "=" ++ qsEncode v)))

/-! ## signMessage and generateNonce (src lines 67-84 of the agent module) -/

/-- `signMessage(postBody, privateKey)`: `qs.stringify` the post data, then
the hex HMAC-SHA512 digest of it keyed by the private key. -/
def signMessage (postBody : Params) (privateKey : String) : String :=
  bytesToHex (hmacSha512 (utf8Encode privateKey) (utf8Encode (qsStringify postBody)))

/-- `generateNonce()`: `Date.now() * 1000`, with the wall-clock millisecond
reading made an explicit argument. -/
def generateNonce (nowMs : Nat) : Nat := nowMs * 1000

/-! ## The raw agent (getRawAgent, src/unnamed/part_001 lines 114-209)

The agent holds the optional credential pair and builds the axios
configuration for each send.  Header objects are embedded as ordered
association lists with JS spread semantics: a later entry for the same key
shadows an earlier one, so lookup takes the last match. -/

/-- `IApiAuth`: the credential pair. -/
structure ApiAuth where
  publicKey : String
  privateKey : String
deriving DecidableEq

/-- The raw agent state: the `auth` field. -/
structure RawAgent where
  auth : Option ApiAuth
deriving DecidableEq

/-- An ordered header object; later entries shadow earlier ones as in JS
object spread. -/
abbrev Headers := List (String × String)

/-- Header lookup with last-entry-wins (JS spread) semantics. -/
def hdrGet (hs : Headers) (k : String) : Option String :=
  (hs.reverse.find? (fun p => p.1 == k)).map (fun p => p.2)

/-- `defaultAgentConfig.headers`: the one base header. -/
def defaultHeaders : Headers :=
  [("User-Agent", "Poloniex API Client (poloniex-exchange-api node package)")]

/-- The configuration object handed to axios.  `rootUrl` spread from
`defaultConfig` and the constant `validateStatus` callback carry no
claim-relevant data and are not modelled. -/
structure AgentConfig where
  baseURL : String
  headers : Headers
  method : String
  timeout : Nat
  url : String
  data : Option String
deriving DecidableEq

/-- The modelled slice of an `IPoloniexRequestConfig` override: the fields
the private/public send paths actually consult (`headers` is spread into
the built headers and re-spread over the final config; `timeout` overrides
the default). -/
structure ReqConfig where
  headers : Option Headers
  timeout : Option Nat
deriving DecidableEq

/-- The `timeout` of `config = spread of defaultConfig then configOverride`. -/
def overrideTimeout (cfgO : Option ReqConfig) : Nat :=
  match cfgO with
  | some c => c.timeout.getD 5000
  | none => 5000

/-- The `headers` field of `config`, when the override carries one. -/
def overrideHeaders (cfgO : Option ReqConfig) : Option Headers :=
  cfgO.bind (fun c => c.headers)

/-- `getRawAgent(auth)`: a fresh agent holding the given credentials. -/
def getRawAgent (auth : Option ApiAuth) : RawAgent := ⟨auth⟩

/-- `isUpgraded()`: returns `this.auth`, truthy exactly when the credential
object is present. -/
def isUpgraded (st : RawAgent) : Bool := st.auth.isSome

/-- `upgrade(newAuth)`: `this.auth = newAuth`. -/
def upgrade (st : RawAgent) (newAuth : ApiAuth) : RawAgent :=
  { st with auth := some newAuth }

/-- `getPublicEndpoint(queryParams, configOverride)`: a GET at
`/public?<qs.stringify(queryParams)>` under the public agent config, the
override's `headers`/`timeout` re-spread over it.  Returned together with
the agent state as it stands after the call. -/
def getPublicEndpoint (st : RawAgent) (queryParams : Params) (cfgO : Option ReqConfig) :
    RawAgent × AgentConfig :=
  let uri := "/public?" ++ qsStringify queryParams
  let hs := match overrideHeaders cfgO with
    | some h => h
    | none => defaultHeaders
  (st, { baseURL := "https://poloniex.com", headers := hs, method := "GET",
         timeout := overrideTimeout cfgO, url := uri, data := none })

/-- The two request-specific headers of a private POST: the stored public
key as `Key` and the signature of the exact serialized body as `Sign`. -/
def privateHeaders (auth : ApiAuth) (data : Params) : Headers :=
  [("Key", auth.publicKey), ("Sign", signMessage data auth.privateKey)]

/-- What `postToPrivateEndpoint` does before any network I/O: either the
synchronous rejection, or the configuration handed to the transport. -/
inductive PrivateOutcome where
  /-- `Promise.reject(reason)` without the transport ever being invoked. -/
  | rejected (reason : String)
  /-- The axios configuration of the request that is sent. -/
  | request (cfg : AgentConfig)
deriving DecidableEq

/-- `postToPrivateEndpoint(data, configOverride)`: reject `not
authenticated` when `isUpgraded()` is falsy; otherwise a POST at
`/tradingApi` whose body is `qs.stringify(data)` and whose headers are the
base headers, then `Key`/`Sign`, then the override's headers (each later
spread shadowing the earlier), the whole header object replaced by the
override's when `config` carries one (the trailing spread of `config` over
the agent config).  Returned with the agent state after the call. -/
def postToPrivateEndpoint (st : RawAgent) (data : Params) (cfgO : Option ReqConfig) :
    RawAgent × PrivateOutcome :=
  match st.auth with
  | none => (st, .rejected "not authenticated")
  | some auth =>
    let headersOverride := overrideHeaders cfgO
    let builtHeaders := defaultHeaders ++ privateHeaders auth data ++ headersOverride.getD []
    let finalHeaders := match headersOverride with
      | some h => h
      | none => builtHeaders
    (st, .request { baseURL := "https://poloniex.com", headers := finalHeaders,
                    method := "POST", timeout := overrideTimeout cfgO,
                    url := "/tradingApi", data := some (qsStringify data) })

/-! ## Endpoint shaping: returnOrderBook (src/unnamed/part_001 lines 367-376) -/

/-- `IReturnOrderBookParams`. -/
structure ReturnOrderBookParams where
  currencyPair : String
  depth : Option String

/-- The parameter object `returnOrderBook` builds: the `command`, then
either the picked `currencyPair`/`depth` fields (absent `depth` picked as
`undefined`) or the `currencyPair: all` default. -/
def returnOrderBookParams (queryParams : Option ReturnOrderBookParams) : Params :=
  ("command", .str "returnOrderBook") ::
    (match queryParams with
     | some q => [("currencyPair", QVal.str q.currencyPair),
                  ("depth", match q.depth with
                    | some d => QVal.str d
                    | none => QVal.undef)]
     | none => [("currencyPair", QVal.str "all")])

/-- The client method `returnOrderBook`: shape the parameters and delegate
to the public endpoint. -/
def returnOrderBook (st : RawAgent) (queryParams : Option ReturnOrderBookParams)
    (requestConfig : Option ReqConfig) : RawAgent × AgentConfig :=
  getPublicEndpoint st (returnOrderBookParams queryParams) requestConfig

/-! ## The error-unwrapping chain (src/index.ts line 175)

`const rejectionReason = err.response.data.error || err.response.data ||
err.response || err;` — embedded with JS evaluation semantics: property
access on `undefined` throws a `TypeError`, property access on a string
yields `undefined`, `||` falls through on falsy values (empty string;
objects are always truthy). -/

/-- The `data` payload of an axios error response: either a parsed JSON
object with an optional `error` field, or a raw body string. -/
inductive ErrData where
  /-- A parsed object body with its optional `error` field. -/
  | obj (error : Option String)
  /-- A raw string body. -/
  | str (s : String)
deriving DecidableEq

/-- The `response` carried by an axios error, with its optional `data`. -/
structure ErrResponse where
  data : Option ErrData
deriving DecidableEq

/-- An axios transport error, with its optional `response`. -/
structure TransportErr where
  response : Option ErrResponse
deriving DecidableEq

/-- The value the catch block rejects with. -/
inductive Rejection where
  /-- The response body's `error` field. -/
  | errField (s : String)
  /-- The response body. -/
  | body (d : ErrData)
  /-- The response object. -/
  | resp (r : ErrResponse)
  /-- The raw error. -/
  | raw (e : TransportErr)
  /-- The `TypeError` thrown by a property access on `undefined`. -/
  | typeError
deriving DecidableEq

/-- The rejection produced by the catch block of `postToPrivateEndpoint`
in src/index.ts: evaluate `err.response.data.error || err.response.data ||
err.response || err` under JS semantics. -/
def rejectionReason (err : TransportErr) : Rejection :=
  match err.response with
  | none => .typeError
  | some r =>
    match r.data with
    | none => .typeError
    | some d =>
      match d with
      | .obj errF =>
        match errF with
        | some s => if s = "" then .body (.obj (some "")) else .errField s
        | none => .body (.obj none)
      | .str s => if s = "" then .resp r else .body (.str s)

/-- The chain as the spec words it: the response-provided error field, else
the response body, else the response object, else the raw error — each
taken whenever truthy, with a missing link falling through rather than
throwing.  Stated from the spec for comparison with `rejectionReason`. -/
def specRejectionReason (err : TransportErr) : Rejection :=
  match err.response with
  | none => .raw err
  | some r =>
    match r.data with
    | none => .resp r
    | some d =>
      match d with
      | .obj errF =>
        match errF with
        | some s => if s = "" then .body (.obj (some "")) else .errField s
        | none => .body (.obj none)
      | .str s => if s = "" then .resp r else .body (.str s)

/-! ## The upgrade slip in src/index.ts (lines 313-319)

`getRawClient` defines the methods below; the wrapper's `upgrade` method
delegates with `this.rawClient.update(newAuth)`.  Method dispatch is by
name: a name not among the raw client's methods is `undefined`, and calling
it throws a `TypeError`. -/

/-- The method names `getRawClient` defines on the raw client object. -/
def getRawClientMethods : List String :=
  ["getPublicEndpoint", "isUpgraded", "postToPrivateEndpoint", "signMessage", "upgrade"]

/-- The method name the src/index.ts client wrapper's `upgrade` invokes on
the raw client. -/
def clientUpgradeDelegatesTo : String := "update"

/-- What a JS method call on the raw client does: run the method when the
name is defined, throw a `TypeError` otherwise. -/
inductive UpgradeResult where
  /-- The delegated call ran and produced the new agent state. -/
  | ok (st : RawAgent)
  /-- The named method is `undefined`; the call throws. -/
  | typeError
deriving DecidableEq

/-- The src/index.ts client-level `upgrade`: dispatch
`clientUpgradeDelegatesTo` on the raw client's method table; the raw
client's own upgrade runs only if that name is defined. -/
def indexClientUpgrade (st : RawAgent) (newAuth : ApiAuth) : UpgradeResult :=
  if getRawClientMethods.contains clientUpgradeDelegatesTo then
    .ok (upgrade st newAuth)
  else
    .typeError

/-! ## Helper lemmas -/

/-- Header lookup over an appended header object prefers the later part, as
JS object spread does. -/
theorem hdrGet_append (h1 h2 : Headers) (k : String) :
    hdrGet (h1 ++ h2) k = Option.or (hdrGet h2 k) (hdrGet h1 k) := by
  unfold hdrGet
  rw [List.reverse_append, List.find?_append]
  cases hf : List.find? (fun p => p.1 == k) h2.reverse with
  | none => simp [hf, Option.or]
  | some v => simp [hf, Option.or]

/-- `natToBytesBE` yields exactly the requested number of bytes. -/
theorem natToBytesBE_length (k n : Nat) : (natToBytesBE k n).length = k := by
  simp [natToBytesBE]

/-- A SHA-512 digest is 64 bytes, whatever the message. -/
theorem sha512_length (msg : List Nat) : (sha512 msg).length = 64 := by
  simp [sha512, natToBytesBE_length]

/-- An HMAC-SHA512 digest is 64 bytes, whatever the key and message. -/
theorem hmacSha512_length (key msg : List Nat) : (hmacSha512 key msg).length = 64 := by
  simp [hmacSha512, sha512_length]

/-- Every value hex-renders to a lowercase hex digit character. -/
theorem hexDigitChar_isLowerHex (n : Nat) : isLowerHexChar (hexDigitChar n) = true := by
  by_cases h : n < 16
  · interval_cases n <;> decide
  · have hd : lowerHexDigits.getD n '0' = '0' :=
      List.getD_eq_default _ _ (by
        have hlen : lowerHexDigits.length = 16 := rfl
        omega)
    unfold hexDigitChar
    rw [hd]
    decide

/-- Hex rendering doubles the byte count. -/
theorem flatten_byteToHex_length (bs : List Nat) :
    (List.flatten (bs.map byteToHex)).length = 2 * bs.length := by
  induction bs with
  | nil => rfl
  | cons b t ih =>
    simp only [List.map_cons, List.flatten_cons, List.length_append, ih, byteToHex,
      List.length_cons, List.length_nil]
    omega

/-- Every character of a hex rendering is a lowercase hex digit. -/
theorem flatten_byteToHex_all (bs : List Nat) :
    (List.flatten (bs.map byteToHex)).all isLowerHexChar = true := by
  induction bs with
  | nil => rfl
  | cons b t ih =>
    simp [byteToHex, List.all_append, hexDigitChar_isLowerHex, ih]

/-! ## The claims -/

/-- Claim C1: for every authenticated client and every parameter map,
`postToPrivateEndpoint` builds a POST configuration at `/tradingApi` whose
body is the canonical urlencoded serialization of the parameters, whose
`Key` header is the stored public key, and whose `Sign` header is
`signMessage` of that exact serialized body under the stored private key,
with the request-specific headers merged over the base headers so that they
take precedence on conflict. -/
theorem private_post_builds_signed_config (auth : ApiAuth) (ps : Params) :
    ∃ cfg : AgentConfig,
      (postToPrivateEndpoint (getRawAgent (some auth)) ps none).2 = .request cfg ∧
      cfg.method = "POST" ∧
      cfg.url = "/tradingApi" ∧
      cfg.data = some (qsStringify ps) ∧
      hdrGet cfg.headers "Key" = some auth.publicKey ∧
      hdrGet cfg.headers "Sign" = some (signMessage ps auth.privateKey) ∧
      (∀ k, hdrGet cfg.headers k =
        Option.or (hdrGet (privateHeaders auth ps) k) (hdrGet defaultHeaders k)) := by
  refine ⟨_, rfl, rfl, rfl, rfl, rfl, rfl, ?_⟩
  intro k
  show hdrGet (defaultHeaders ++ (privateHeaders auth ps ++ [])) k = _
  rw [List.append_nil, hdrGet_append]

/-- Claim C2: on a client without credentials, every private send rejects
synchronously with the unauthenticated reason and never produces a request
for the transport. -/
theorem unauthenticated_private_rejected :
    ∀ (ps : Params) (cfgO : Option ReqConfig),
      postToPrivateEndpoint (getRawAgent none) ps cfgO =
        (getRawAgent none, .rejected "not authenticated") := by
  intro ps cfgO
  rfl

/-- Claim C3 counterexample: on a transport error carrying no response, the
unwrap chain dereferences `undefined` and the surfaced rejection is the
resulting `TypeError`, not the raw error the claimed precedence order
prescribes (as `specRejectionReason` records it). -/
theorem raw_error_branch_unreachable :
    rejectionReason ⟨none⟩ = .typeError ∧
    specRejectionReason ⟨none⟩ = .raw ⟨none⟩ ∧
    (rejectionReason ⟨none⟩ == specRejectionReason ⟨none⟩) = false := by
  decide

/-- Claim C3 (amended): whenever the transport error carries a response
with a data payload, the rejection follows the claimed precedence order —
the response's error field when truthy, else the body when truthy, else the
response object — and in particular a body whose error field is the string
`Invalid nonce` rejects with exactly that string; when the response or its
data is absent the handler instead throws a `TypeError`, so the raw error
is never surfaced. -/
theorem error_unwrap_precedence :
    (∀ d : ErrData,
      rejectionReason ⟨some ⟨some d⟩⟩ = specRejectionReason ⟨some ⟨some d⟩⟩) ∧
    rejectionReason ⟨some ⟨some (.obj (some "Invalid nonce"))⟩⟩ =
      .errField "Invalid nonce" ∧
    rejectionReason ⟨none⟩ = .typeError := by
  refine ⟨?_, rfl, rfl⟩
  intro d
  rcases d with errF | s
  · rcases errF with _ | s <;> rfl
  · rfl

/-- Claim C4: the src/index.ts client wrapper's `upgrade` delegates to a
method name the raw client never defines, so the call throws a `TypeError`
for every state and every credential pair instead of replacing the
credentials. -/
theorem index_upgrade_throws :
    ∀ (st : RawAgent) (newAuth : ApiAuth),
      indexClientUpgrade st newAuth = .typeError := by
  intro st newAuth
  rfl

/-- Claim C5: `isUpgraded` is true exactly when credentials are present —
it computes presence of the `auth` field, is false on a client constructed
without credentials, and is true immediately after any `upgrade`. -/
theorem isUpgraded_iff_credentials :
    (∀ st : RawAgent, isUpgraded st = st.auth.isSome) ∧
    isUpgraded (getRawAgent none) = false ∧
    (∀ (st : RawAgent) (newAuth : ApiAuth), isUpgraded (upgrade st newAuth) = true) :=
  ⟨fun _ => rfl, rfl, fun _ _ => rfl⟩

/-- Claim C6 counterexample: two private requests issued within the same
wall-clock millisecond (a non-decreasing clock reading, here twice the same
instant) receive equal nonces, so the later nonce is not strictly greater
than the earlier one. -/
theorem nonce_not_strictly_increasing_within_ms :
    Nat.ble 1700000000000 1700000000000 = true ∧
    Nat.blt (generateNonce 1700000000000) (generateNonce 1700000000000) = false := by
  decide

/-- Claim C6 (amended): the nonce of a later private request is strictly
greater than that of an earlier one exactly when the wall-clock millisecond
reading strictly increased between the two calls; calls within the same
millisecond receive equal, non-increasing nonces. -/
theorem nonce_strictly_increasing_iff_clock :
    ∀ t1 t2 : Nat, (generateNonce t1 < generateNonce t2 ↔ t1 < t2) := by
  intro t1 t2
  unfold generateNonce
  omega

/-- Witness for the amended Claim C6 theorem at a concrete pair of strictly
increasing clock readings. -/
theorem nonce_strictly_increasing_iff_clock_witness :
    generateNonce 1700000000000 < generateNonce 1700000000001 :=
  (nonce_strictly_increasing_iff_clock 1700000000000 1700000000001).mpr (by decide)

/-- Claim C7: for every client state and every parameter map including the
command field, the public send builds a GET whose URL is `/public` followed
by the urlencoded parameters as the query string and whose headers carry no
`Key` or `Sign`; the order-book operation on BTC_ETH yields exactly
`/public?command=returnOrderBook&currencyPair=BTC_ETH`. -/
theorem public_get_builds_query_url :
    (∀ (st : RawAgent) (ps : Params),
      (getPublicEndpoint st ps none).2.method = "GET" ∧
      (getPublicEndpoint st ps none).2.url = "/public?" ++ qsStringify ps ∧
      hdrGet (getPublicEndpoint st ps none).2.headers "Key" = none ∧
      hdrGet (getPublicEndpoint st ps none).2.headers "Sign" = none) ∧
    (returnOrderBook (getRawAgent none) (some ⟨"BTC_ETH", none⟩) none).2.url =
      "/public?command=returnOrderBook&currencyPair=BTC_ETH" := by
  refine ⟨fun st ps => ⟨rfl, rfl, rfl, rfl⟩, ?_⟩
  decide

/-- Claim C8: for every parameter map and every secret, including the empty
one, `signMessage` returns a string of exactly 128 characters, each a
lowercase hexadecimal digit. -/
theorem sign_output_is_128_lowercase_hex :
    ∀ (postBody : Params) (privateKey : String),
      (signMessage postBody privateKey).length = 128 ∧
      (signMessage postBody privateKey).data.all isLowerHexChar = true := by
  intro p k
  unfold signMessage bytesToHex
  constructor
  · show (List.flatten ((hmacSha512 (utf8Encode k) (utf8Encode (qsStringify p))).map byteToHex)).length = 128
    rw [flatten_byteToHex_length, hmacSha512_length]
  · show (List.flatten ((hmacSha512 (utf8Encode k) (utf8Encode (qsStringify p))).map byteToHex)).all isLowerHexChar = true
    exact flatten_byteToHex_all _

/-- Claim C9: both send operations leave the credential state untouched —
the agent after a public or private send holds exactly the `auth` it held
before. -/
theorem sends_preserve_credentials :
    ∀ (st : RawAgent) (ps d : Params) (cfgO cfgO' : Option ReqConfig),
      (getPublicEndpoint st ps cfgO).1.auth = st.auth ∧
      (postToPrivateEndpoint st d cfgO').1.auth = st.auth := by
  intro st ps d cfgO cfgO'
  refine ⟨rfl, ?_⟩
  rcases st with ⟨_ | auth⟩ <;> rfl

/-- Claim C10: the public request configuration is independent of
credentials — two clients differing only in their stored credentials build
identical public transport configurations for the same query parameters and
config override. -/
theorem public_config_credential_independent :
    ∀ (a1 a2 : Option ApiAuth) (ps : Params) (cfgO : Option ReqConfig),
      (getPublicEndpoint (getRawAgent a1) ps cfgO).2 =
        (getPublicEndpoint (getRawAgent a2) ps cfgO).2 := by
  intro a1 a2 ps cfgO
  rfl

/-! ## Validation of the embedded primitives against external test vectors -/

set_option maxRecDepth 40000 in
/-- FIPS 180-4 test vector: SHA-512 of the ASCII string `abc`. -/
theorem sha512_abc_vector :
    bytesToHex (sha512 (utf8Encode "abc")) =
      "ddaf35a193617abacc417349ae20413112e6fa4e89a97ea20a9eeee64b55d39a2192992a274fc1a836ba3c23a3feebbd454d4423643ce80e2a9ac94fa54ca49f" := by
  decide

set_option maxRecDepth 40000 in
/-- RFC 4231 test case 2: HMAC-SHA512 with key `Jefe`. -/
theorem hmacSha512_rfc4231_case2 :
    bytesToHex (hmacSha512 (utf8Encode "Jefe") (utf8Encode "what do ya want for nothing?")) =
      "164b7a7bfcf819e2e395fbe73b56e0a387bd64222e831fd610270cd7ea2505549758bf75c05a994a6d034f65f8f0e6fdcaeab1a34d4a6b4b636e070a38bce737" := by
  decide

set_option maxRecDepth 40000 in
/-- The spec's signing scenario: the balances command at nonce 1 signed
with the secret `SECRET`. -/
theorem signMessage_balances_scenario :
    signMessage [("command", .str "returnBalances"), ("nonce", .num 1)] "SECRET" =
      "a21ce8dc56164a3c65559a6d57c664e53f60f750898aa139d09e3d7bcba99dd723c2a971479cca1d8c7d07330ffd35cf8cb0881f48e92136b6881331732bf9cc" := by
  decide

end Poloniex
